import Mathlib

/-!
Verification of the request-dispatch registry implemented in `src/decorations.ts`.

The embedding below translates the registry's runtime behavior into Lean:

* JS arrays of `string | undefined` become `List (Option String)`, read and written
  with `getArg`/`setArg`, which reproduce JS index reads (holes and out-of-range
  reads are `undefined`) and index assignment (padding with holes).
* A compiled `RegExp` is abstracted by its `exec` behavior (`RegExpM`);
  `RegExp.prototype.test` is derived from it.  Concrete `RegExpM` values used in
  examples each carry a doc comment naming the JavaScript regex they model.
* `Reflect` metadata attached to a handler instance and method key is resolved to a
  `MethodMeta` record plus the invocable method itself; the decorators in the source
  (`address`, `body`, `capture`, `protect`, `GET`/`POST`/`DELETE`) only write this
  metadata, so the record is the complete information `Responder.call` can observe.
* Thrown JS `TypeError`s (dereferencing `undefined`/`null`) are modeled with
  `Except JsError`; in-band responses are `Except.ok` values.
* `Responders.init` takes constructor injections in the source; injections only
  populate constructor arguments of the handler instance and are not observable
  through routing metadata or the claims below, so the constructed instance is
  modeled per class.  A thrown `TypeError` during `init` aborts the operation; the
  partially pushed entries on the mutated JS object are not modeled (no claim
  observes the registry after a failed `init`).
* Handler methods are modeled as pure total functions; promise resolution and
  handler-thrown faults are outside the properties considered here.
-/

namespace Decorations

/-- A JavaScript runtime fault: the `TypeError` raised when a property of
`undefined`/`null` is dereferenced (e.g. `paths.map` with `paths` undefined, or
`matches![i]` with `matches` null). -/
inductive JsError where
  | typeError
deriving DecidableEq

/-- JS falsiness of a `string | undefined` value: `undefined` and the empty string
are falsy.  Models the tests `!address` and `!matches[grouping.index]`. -/
def falsy : Option String → Bool
  | none => true
  | some s => s.isEmpty

/-- Read `a[i]` from a JS array of `string | undefined` values: holes and
out-of-range reads yield `undefined`. -/
def getArg : List (Option String) → Nat → Option String
  | [], _ => none
  | a :: _, 0 => a
  | _ :: as, n + 1 => getArg as n

/-- JS index assignment `a[i] = v`: replaces position `i`, padding any positions
created in between with holes (`undefined`). -/
def setArg : List (Option String) → Nat → Option String → List (Option String)
  | [], 0, v => [v]
  | [], n + 1, v => none :: setArg [] n v
  | _ :: as, 0, v => v :: as
  | a :: as, n + 1, v => a :: setArg as n v

/-- A compiled JavaScript `RegExp`, abstracted by its `exec` behavior:
`exec path = none` when the regex matches nowhere in `path` (`exec` returns
`null`), otherwise `some m`, where `m` holds the overall match at index 0 followed
by the capture groups (`none` for a non-participating group); reads beyond the end
of `m` yield `undefined`, as in JS. -/
structure RegExpM where
  exec : String → Option (List (Option String))

/-- `RegExp.prototype.test`: true iff `exec` finds a match.  Like `exec`, this is
an unanchored search over the input string. -/
def RegExpM.test (r : RegExpM) (s : String) : Bool := (r.exec s).isSome

/-- The `path: string | RegExp` union used by `ResponderDefinition` and
`Responder`; the source discriminates it with `instanceof RegExp`. -/
inductive PathPattern where
  | str (s : String)
  | regex (r : RegExpM)

/-- `CaptureGrouping` from the source: the referenced capture-group index and the
required flag recorded by the `capture(index, required)` decorator. -/
structure CaptureGrouping where
  index : Nat
  required : Bool

/-- The sparse `CaptureGroupings` array (`Array<CaptureGrouping | undefined>`),
indexed by parameter position; `none` entries are holes. -/
def CaptureGroupings := List (Option CaptureGrouping)

/-- The `Reflect` metadata attached to a handler instance and method key, as read
by `Responder.call`: `protect` is the protection flag (absent metadata reads as
false), `addressIndex`/`bodyIndex` are the parameter indices recorded by the
`address`/`body` parameter decorators, and `captures` is the sparse
`CaptureGroupings` array (`none` when the `capture` decorator was never applied to
the method). -/
structure MethodMeta where
  protect : Bool
  addressIndex : Option Nat
  bodyIndex : Option Nat
  captures : Option (List (Option CaptureGrouping))

/-- `Responses<TResponse>`: the configured 400/401 response literals (the source
uses the numeric field names `400` and `401`). -/
structure Responses (T : Type) where
  r400 : T
  r401 : T

/-- The `Responder` entry class.  The source stores the handler instance and the
method key and resolves metadata through `Reflect` on that pair; here the pair is
resolved to the method's metadata (`meta`) and the invocable method itself
(`handler`). -/
structure Responder (T : Type) where
  handler : List (Option String) → T
  path : PathPattern
  method : String
  meta : MethodMeta
  responses : Responses T

/-- `Responder.match`: the incoming verb string must equal the entry's method
(`method === this.method`), and the path must match — by `RegExp.test` for
regex-typed patterns, by exact string equality (`===`) for literal patterns. -/
def Responder.isMatch {T : Type} (r : Responder T) (path method : String) : Bool :=
  method == r.method &&
    (match r.path with
      | .regex re => re.test path
      | .str s => s == path)

/-- The `for (const index in captureGroupings)` loop inside `Responder.call`:
iterates the defined entries of the sparse groupings array in ascending parameter
index.  For each defined grouping the code evaluates
`grouping.required && !matches![grouping.index]` and, in the else branch, assigns
`args[index] = matches![grouping.index]`; with `matches` null either branch
dereferences null and throws.  `Sum.inl` is the early 400 return, `Sum.inr` the
assembled argument array. -/
def captureLoop {T : Type} (r400 : T) (ms : Option (List (Option String))) :
    List (Option CaptureGrouping) → Nat → List (Option String) →
      Except JsError (T ⊕ List (Option String))
  | [], _, args => .ok (.inr args)
  | none :: gs, i, args => captureLoop r400 ms gs (i + 1) args
  | some g :: gs, i, args =>
    match ms with
    | none => .error .typeError
    | some m =>
      if g.required && falsy (getArg m g.index) then .ok (.inl r400)
      else captureLoop r400 ms gs (i + 1) (setArg args i (getArg m g.index))

/-- `Responder.call`: the authorization gate (`protect` metadata and falsy
`address` short-circuit to the 401 response), then the sparse argument array is
filled at the address and body indices, then — for regex-typed paths with capture
metadata — `exec` runs and the capture loop validates and places the captured
groups, and finally the handler method is invoked with the assembled arguments. -/
def Responder.call {T : Type} (e : Responder T) (path : String)
    (address body : Option String) : Except JsError T :=
  if e.meta.protect && falsy address then
    .ok e.responses.r401
  else
    let args0 : List (Option String) :=
      match e.meta.addressIndex with
      | some i => setArg [] i address
      | none => []
    let args1 : List (Option String) :=
      match e.meta.bodyIndex with
      | some i => setArg args0 i body
      | none => args0
    match e.path with
    | .str _ => .ok (e.handler args1)
    | .regex re =>
      match e.meta.captures with
      | none => .ok (e.handler args1)
      | some gs =>
        match captureLoop e.responses.r400 (re.exec path) gs 0 args1 with
        | .error err => .error err
        | .ok (.inl r) => .ok r
        | .ok (.inr args2) => .ok (e.handler args2)

/-- `ResponderDefinition`: one route declaration pushed by the `GET`/`POST`/
`DELETE` method decorators — method key, path pattern, verb. -/
structure ResponderDefinition where
  key : String
  path : PathPattern
  method : String

/-- A registered handler class (`ResponderConstructor`), resolved to the metadata
`init` and `Responder.call` can observe: `pathMeta` is the class's
`ResponderDefinition` list in decorator-application (declaration) order, or `none`
when no route decorator was ever applied (so `Reflect.getMetadata` returns
`undefined`); `methodMeta` and `handlers` give, per method key, the per-method
metadata and the invocable method of the constructed instance. -/
structure ResponderConstructor (T : Type) where
  pathMeta : Option (List ResponderDefinition)
  methodMeta : String → MethodMeta
  handlers : String → List (Option String) → T

/-- Constructing one `Responder` entry from a route definition of a class, as in
`init`'s `paths.map((p) => new Responder(responder, p.path, p.method, p.key,
this.responses))`. -/
def mkEntry {T : Type} (responses : Responses T) (c : ResponderConstructor T)
    (p : ResponderDefinition) : Responder T :=
  { handler := c.handlers p.key
    path := p.path
    method := p.method
    meta := c.methodMeta p.key
    responses := responses }

/-- The entry-building loop of `init`: for each registered class in registration
order, read its path metadata — `undefined` metadata makes `paths.map` throw a
`TypeError` — and append one entry per route declaration, in declaration order. -/
def buildEntries {T : Type} (responses : Responses T) :
    List (ResponderConstructor T) → Except JsError (List (Responder T))
  | [] => .ok []
  | c :: cs =>
    match c.pathMeta with
    | none => .error .typeError
    | some paths =>
      (buildEntries responses cs).map (fun rest => paths.map (mkEntry responses c) ++ rest)

/-- The `Responders<TInjections, TResponse>` registry: the built entry list, the
registered constructors, and the configured 400/401 responses. -/
structure Responders (T : Type) where
  responderEntries : List (Responder T)
  responderConstructors : List (ResponderConstructor T)
  responses : Responses T

/-- `Responders.register`: appends the class to the pending constructor list. -/
def Responders.register {T : Type} (rs : Responders T) (c : ResponderConstructor T) :
    Responders T :=
  { rs with responderConstructors := rs.responderConstructors ++ [c] }

/-- `Responders.init`: builds entries for every registered constructor, in
registration order, and pushes them onto the existing entry list (so a second
`init` appends a second copy). -/
def Responders.init {T : Type} (rs : Responders T) : Except JsError (Responders T) :=
  (buildEntries rs.responses rs.responderConstructors).map
    (fun es => { rs with responderEntries := rs.responderEntries ++ es })

/-- `Responders.get`: `this.responderEntries.find((r) => r.match(path, method))` —
a linear scan in entry order returning the first match. -/
def Responders.get {T : Type} (rs : Responders T) (path method : String) :
    Option (Responder T) :=
  rs.responderEntries.find? (fun r => r.isMatch path method)

/-- The entries `init` derives from one class: its declared routes in declaration
order. -/
def classEntries {T : Type} (responses : Responses T) (c : ResponderConstructor T) :
    List (Responder T) :=
  (c.pathMeta.getD []).map (mkEntry responses c)

/-- All entries one successful `init` appends: per-class declaration order,
concatenated across classes in registration order. -/
def entriesOf {T : Type} (rs : Responders T) : List (Responder T) :=
  (rs.responderConstructors.map (classEntries rs.responses)).flatten

/-- Whether the first list of characters occurs at the very start of the second. -/
def headMatch : List Char → List Char → Bool
  | [], _ => true
  | _ :: _, [] => false
  | a :: as, b :: bs => a == b && headMatch as bs

/-- Whether the first list of characters occurs contiguously anywhere in the
second. -/
def occursIn (needle : List Char) : List Char → Bool
  | [] => headMatch needle []
  | c :: rest => headMatch needle (c :: rest) || occursIn needle rest

/-- A JS regex whose source text is a plain literal string (no metacharacters and
no anchors): per ECMAScript, `exec` performs an unanchored search, so it finds a
match exactly when the pattern text occurs as a contiguous substring of the
input, and the match array is the single-element array holding that text. -/
def regexOfLiteralText (pat : String) : RegExpM :=
  { exec := fun s => if occursIn pat.toList s.toList then some [some pat] else none }

/-- A string fully matches a literal-text regex pattern exactly when it equals
the pattern text (the full-match language of such a pattern is that one word). -/
def literalFullMatch (pat s : String) : Bool := pat == s

/-- Models the JavaScript regex `/i(x)?/`: an unanchored search for the first
`i` in the input; the optional group 1 captures a following `x` when one is
present and is undefined otherwise.  Matches nowhere when the input has no `i`. -/
def execIopt : List Char → Option (List (Option String))
  | [] => none
  | c :: rest =>
    if c == 'i' then
      if rest.head? == some 'x' then some [some "ix", some "x"]
      else some [some "i", none]
    else execIopt rest

/-- The compiled form of the JavaScript regex `/i(x)?/` (see `execIopt`). -/
def reIopt : RegExpM := { exec := fun s => execIopt s.toList }

theorem getArg_setArg_self (args : List (Option String)) (i : Nat) (v : Option String) :
    getArg (setArg args i v) i = v := by
  induction args generalizing i with
  | nil =>
    induction i with
    | zero => rfl
    | succ n ih => simpa [setArg, getArg] using ih
  | cons a as ih =>
    cases i with
    | zero => rfl
    | succ n => simpa [setArg, getArg] using ih n

theorem getArg_setArg_ne (args : List (Option String)) (i j : Nat) (v : Option String)
    (h : i ≠ j) : getArg (setArg args i v) j = getArg args j := by
  induction args generalizing i j with
  | nil =>
    induction i generalizing j with
    | zero =>
      cases j with
      | zero => exact absurd rfl h
      | succ m => simp [setArg, getArg]
    | succ n ih =>
      cases j with
      | zero => simp [setArg, getArg]
      | succ m =>
        simpa [setArg, getArg] using ih m (fun hc => h (by omega))
  | cons a as ih =>
    cases i with
    | zero =>
      cases j with
      | zero => exact absurd rfl h
      | succ m => simp [setArg, getArg]
    | succ n =>
      cases j with
      | zero => simp [setArg, getArg]
      | succ m =>
        simpa [setArg, getArg] using ih n m (fun hc => h (by omega))

theorem getArg_ge_length (m : List (Option String)) (i : Nat) (h : m.length ≤ i) :
    getArg m i = none := by
  induction m generalizing i with
  | nil => rfl
  | cons a as ih =>
    cases i with
    | zero => simp at h
    | succ n => simpa [getArg] using ih n (by simpa using h)

theorem find?_none_iff {α : Type} (p : α → Bool) (l : List α) :
    l.find? p = none ↔ ∀ x ∈ l, p x = false := by
  induction l with
  | nil => simp
  | cons a l ih =>
    by_cases hpa : p a
    · simp [List.find?_cons_of_pos _ hpa, hpa]
    · simp only [Bool.not_eq_true] at hpa
      simp [List.find?_cons_of_neg, hpa, ih]

theorem find?_some_first {α : Type} (p : α → Bool) (l : List α) (e : α)
    (h : l.find? p = some e) :
    p e = true ∧ ∃ i, l.get? i = some e ∧
      ∀ j, j < i → ∀ x, l.get? j = some x → p x = false := by
  induction l generalizing e with
  | nil => simp [List.find?] at h
  | cons a l ih =>
    by_cases hpa : p a
    · rw [List.find?_cons_of_pos _ hpa, Option.some_inj] at h
      subst h
      exact ⟨hpa, 0, rfl, fun j hj => by omega⟩
    · simp only [Bool.not_eq_true] at hpa
      rw [List.find?_cons_of_neg _ (by simp [hpa])] at h
      obtain ⟨hpe, i, hi, hbef⟩ := ih e h
      refine ⟨hpe, i + 1, by simpa using hi, ?_⟩
      intro j hj x hx
      cases j with
      | zero =>
        simp only [List.get?_cons_zero, Option.some_inj] at hx
        subst hx; exact hpa
      | succ k =>
        exact hbef k (by omega) x (by simpa using hx)

/-- C1: after any sequence of registrations and `init`s, `Responders.get` is a
linear scan of the entry list in build order: it returns `none` exactly when no
entry matches, a returned entry is a matching entry all of whose predecessors in
the list fail to match, and for literal (string) patterns matching is verb
equality together with exact string equality of the pattern and the path. -/
theorem get_first_match {T : Type} (rs : Responders T) (path method : String) :
    (rs.get path method = none ↔
      ∀ e ∈ rs.responderEntries, e.isMatch path method = false)
    ∧ (∀ e : Responder T, rs.get path method = some e →
        e.isMatch path method = true ∧
          ∃ i, rs.responderEntries.get? i = some e ∧
            ∀ j, j < i → ∀ e', rs.responderEntries.get? j = some e' →
              e'.isMatch path method = false)
    ∧ (∀ (e : Responder T) (s : String), e.path = .str s →
        e.isMatch path method = (method == e.method && s == path)) := by
  refine ⟨?_, ?_, ?_⟩
  · exact find?_none_iff _ rs.responderEntries
  · intro e h
    exact find?_some_first _ _ _ h
  · intro e s hs
    simp [Responder.isMatch, hs]

/-- A concrete response configuration for examples: the 400/401 literals are the
numbers 400 and 401. -/
def natResponses : Responses Nat := { r400 := 400, r401 := 401 }

/-- Method metadata of an undecorated method: no protection, no bindings. -/
def plainMeta : MethodMeta :=
  { protect := false, addressIndex := none, bodyIndex := none, captures := none }

/-- A concrete entry for a literal route `GET /a` with an undecorated handler. -/
def litResponder : Responder Nat :=
  { handler := fun args => args.length
    path := .str "/a"
    method := "get"
    meta := plainMeta
    responses := natResponses }

/-- A one-entry registry holding `litResponder`. -/
def litRegistry : Responders Nat :=
  { responderEntries := [litResponder]
    responderConstructors := []
    responses := natResponses }

/-- Witness for C1: at the concrete one-entry registry, the request `("/b",
"get")` matches no entry, and `get` indeed returns `none`. -/
theorem get_first_match_witness : litRegistry.get "/b" "get" = none :=
  (get_first_match litRegistry "/b" "get").1.mpr (by decide)

theorem gate_false {T : Type} (e : Responder T) (address : Option String)
    (hgate : e.meta.protect = true → falsy address = false) :
    (e.meta.protect && falsy address) = false := by
  cases hp : e.meta.protect
  · simp
  · simp [hgate hp]

/-- C2: for an entry whose method carries the protection flag, a falsy address
(absent or empty) makes `call` return the configured 401 response as an in-band
`ok` value, uniformly in the handler method — so the handler is never consulted —
while a non-falsy address makes `call` behave exactly as it would on the same
entry with the protection flag cleared, i.e. the gate is passed with no further
effect. -/
theorem call_auth_gate {T : Type} (e : Responder T) (path : String)
    (address body : Option String) (hp : e.meta.protect = true) :
    (falsy address = true →
      ∀ h : List (Option String) → T,
        Responder.call { e with handler := h } path address body = .ok e.responses.r401)
    ∧ (falsy address = false →
        e.call path address body =
          Responder.call { e with meta := { e.meta with protect := false } }
            path address body) := by
  constructor
  · intro hfa h
    simp [Responder.call, hp, hfa]
  · intro hfa
    simp [Responder.call, hp, hfa]

/-- A protected variant of the literal entry: same route, protection flag set. -/
def protResponder : Responder Nat :=
  { handler := fun _ => 7
    path := .str "/p"
    method := "post"
    meta := { protect := true, addressIndex := none, bodyIndex := none, captures := none }
    responses := natResponses }

/-- Witness for C2: the concrete protected entry, invoked with no address,
returns the configured 401 literal for an arbitrary concrete handler. -/
theorem call_auth_gate_witness :
    Responder.call { protResponder with handler := fun _ => 7 } "/p" none none =
      .ok 401 :=
  (call_auth_gate protResponder "/p" none none rfl).1 rfl (fun _ => 7)

theorem captureLoop_required_fail {T : Type} (r400 : T) (m : List (Option String))
    (g : CaptureGrouping) (hreq : g.required = true)
    (hfail : falsy (getArg m g.index) = true) :
    ∀ pre : List (Option CaptureGrouping),
      (∀ g' : CaptureGrouping, some g' ∈ pre → g'.required = true →
        falsy (getArg m g'.index) = false) →
      ∀ (rest : List (Option CaptureGrouping)) (i : Nat) (args : List (Option String)),
        captureLoop r400 (some m) (pre ++ some g :: rest) i args = .ok (.inl r400) := by
  intro pre
  induction pre with
  | nil =>
    intro _ rest i args
    simp [captureLoop, hreq, hfail]
  | cons a pre ih =>
    intro hpre rest i args
    cases a with
    | none =>
      simpa [captureLoop] using
        ih (fun g' hm => hpre g' (List.mem_cons_of_mem _ hm)) rest (i + 1) args
    | some g' =>
      have hcond : (g'.required && falsy (getArg m g'.index)) = false := by
        cases hr : g'.required
        · simp
        · simp [hpre g' (List.mem_cons_self _ _) hr]
      simpa [captureLoop, hcond] using
        ih (fun g'' hm => hpre g'' (List.mem_cons_of_mem _ hm)) rest (i + 1)
          (setArg args i (getArg m g'.index))

/-- C3: on a regex-typed entry whose pattern matches the path (so `exec` yields a
match array `m`), the capture loop walks the declared bindings in parameter-index
order; at the first defined binding that is required and whose referenced group
is absent or empty in `m` — every earlier required binding having a non-falsy
group — `call` returns the configured 400 response, for every handler method (the
handler is never consulted) and for every continuation of the bindings list after
the failing one (no later binding is evaluated). -/
theorem call_first_required_capture_400 {T : Type} (e : Responder T)
    (path : String) (address body : Option String) (re : RegExpM)
    (m : List (Option String)) (pre rest : List (Option CaptureGrouping))
    (g : CaptureGrouping)
    (hpath : e.path = .regex re)
    (hexec : re.exec path = some m)
    (hgate : e.meta.protect = true → falsy address = false)
    (hcap : e.meta.captures = some (pre ++ some g :: rest))
    (hreq : g.required = true)
    (hfail : falsy (getArg m g.index) = true)
    (hpre : ∀ g' : CaptureGrouping, some g' ∈ pre → g'.required = true →
      falsy (getArg m g'.index) = false) :
    (∀ h : List (Option String) → T,
      Responder.call { e with handler := h } path address body = .ok e.responses.r400)
    ∧ (∀ (h : List (Option String) → T) (rest' : List (Option CaptureGrouping)),
        Responder.call
          { e with handler := h,
                   meta := { e.meta with captures := some (pre ++ some g :: rest') } }
          path address body = .ok e.responses.r400) := by
  have hloop := captureLoop_required_fail e.responses.r400 m g hreq hfail pre hpre
  have hg := gate_false e address hgate
  have hmain : ∀ (h : List (Option String) → T) (rest' : List (Option CaptureGrouping)),
      Responder.call
        { e with handler := h,
                 meta := { e.meta with captures := some (pre ++ some g :: rest') } }
        path address body = .ok e.responses.r400 := by
    intro h rest'
    simp [Responder.call, hpath, hexec, hg, hloop rest']
  refine ⟨?_, hmain⟩
  intro h
  have hmeta : ({ e.meta with captures := some (pre ++ some g :: rest) } : MethodMeta)
      = e.meta := by
    rw [← hcap]
  have h2 := hmain h rest
  rw [hmeta] at h2
  exact h2

/-- A concrete regex route `GET /i(x)?/` whose parameter 0 is bound, required, to
group 1. -/
def reqCapResponder : Responder Nat :=
  { handler := fun args => 100 + args.length
    path := .regex reIopt
    method := "get"
    meta := { protect := false, addressIndex := none, bodyIndex := none,
              captures := some [some { index := 1, required := true }] }
    responses := natResponses }

/-- Witness for C3: invoking the concrete required-capture route on `"iy"` — the
regex matches but group 1 does not participate — yields the 400 literal. -/
theorem call_first_required_capture_400_witness :
    Responder.call { reqCapResponder with handler := fun args => 100 + args.length }
      "iy" none none = .ok 400 :=
  (call_first_required_capture_400 reqCapResponder "iy" none none reIopt
      [some "i", none] [] [] { index := 1, required := true }
      rfl (by decide) (by decide) rfl rfl (by decide) (by simp)).1
    (fun args => 100 + args.length)

theorem captureLoop_null_fault {T : Type} (r400 : T) :
    ∀ gs : List (Option CaptureGrouping), (∃ g, some g ∈ gs) →
      ∀ (i : Nat) (args : List (Option String)),
        captureLoop r400 none gs i args = .error .typeError := by
  intro gs
  induction gs with
  | nil =>
    rintro ⟨g, hg⟩
    simp at hg
  | cons a gs ih =>
    rintro ⟨g, hg⟩ i args
    cases a with
    | none =>
      have hmem : some g ∈ gs := by
        rcases List.mem_cons.mp hg with h | h
        · exact absurd h (by simp)
        · exact h
      simpa [captureLoop] using ih ⟨g, hmem⟩ (i + 1) args
    | some g' => simp [captureLoop]

/-- C10: on a regex-typed entry that has at least one capture binding, if the
pattern does not match the invoked path at all (`exec` returns null), `call`
raises the `TypeError` from dereferencing the null match result — it returns no
`Response` value, neither the handler's nor the 400/401 literals. -/
theorem call_unmatched_regex_fault {T : Type} (e : Responder T) (path : String)
    (address body : Option String) (re : RegExpM)
    (gs : List (Option CaptureGrouping)) (g : CaptureGrouping)
    (hpath : e.path = .regex re)
    (hcap : e.meta.captures = some gs)
    (hg : some g ∈ gs)
    (hexec : re.exec path = none)
    (hgate : e.meta.protect = true → falsy address = false) :
    e.call path address body = .error .typeError := by
  have hloop := captureLoop_null_fault e.responses.r400 gs ⟨g, hg⟩
  have hgf := gate_false e address hgate
  simp [Responder.call, hpath, hcap, hexec, hgf, hloop]

/-- Witness for C10: the concrete required-capture route, invoked on `"zzz"`
which its regex does not match, faults instead of producing a response. -/
theorem call_unmatched_regex_fault_witness :
    reqCapResponder.call "zzz" none none = .error .typeError :=
  call_unmatched_regex_fault reqCapResponder "zzz" none none reIopt
    [some { index := 1, required := true }] { index := 1, required := true }
    rfl rfl (by simp) (by decide) (by decide)

/-- C4 (amended): `find` treats a regex-typed entry as matching whenever the
pattern matches anywhere inside the path — for a literal-text pattern, whenever
the pattern text occurs as a substring — because `Responder.match` uses
`RegExp.test`, an unanchored search; the entire path is not required to match. -/
theorem isMatch_regex_unanchored {T : Type} (e : Responder T)
    (path method pat : String)
    (hpath : e.path = .regex (regexOfLiteralText pat)) :
    e.isMatch path method = (method == e.method && occursIn pat.toList path.toList) := by
  simp only [Responder.isMatch, hpath, RegExpM.test, regexOfLiteralText]
  cases h : occursIn pat.toList path.toList <;> simp [h]

/-- A concrete entry for the route `GET /b/` (the regex with literal text `b`). -/
def subRegexResponder : Responder Nat :=
  { handler := fun _ => 0
    path := .regex (regexOfLiteralText "b")
    method := "get"
    meta := plainMeta
    responses := natResponses }

/-- A one-entry registry holding the `/b/` route. -/
def subRegexRegistry : Responders Nat :=
  { responderEntries := [subRegexResponder]
    responderConstructors := []
    responses := natResponses }

/-- Counterexample to C4 as stated: `find` returns the `/b/` entry for the path
`"ab"`, although `"ab"` is not a full match of the pattern (the only word fully
matching the literal pattern `b` is `"b"` itself) — the regex merely matches the
substring `"b"` of the path. -/
theorem get_substring_match_cex :
    subRegexRegistry.get "ab" "get" = some subRegexResponder ∧
      literalFullMatch "b" "ab" = false :=
  ⟨rfl, rfl⟩

/-- Witness for C4 (amended): at the concrete `/b/` entry, matching the path
`"ab"` is exactly verb equality plus substring occurrence of the pattern text. -/
theorem isMatch_regex_unanchored_witness :
    subRegexResponder.isMatch "ab" "get" =
      (("get" == subRegexResponder.method) && occursIn "b".toList "ab".toList) :=
  isMatch_regex_unanchored subRegexResponder "ab" "get" "b" rfl

/-- The pure effect of a completed capture loop on the argument array: each
defined binding, in ascending parameter index, receives its referenced group. -/
def applyCaptures (m : List (Option String)) :
    List (Option CaptureGrouping) → Nat → List (Option String) → List (Option String)
  | [], _, args => args
  | none :: gs, i, args => applyCaptures m gs (i + 1) args
  | some g :: gs, i, args => applyCaptures m gs (i + 1) (setArg args i (getArg m g.index))

/-- No declared binding is both required and referencing a falsy group of `m`:
under this condition the capture loop completes without the 400 short-circuit. -/
def noRequiredFail (m : List (Option String)) (gs : List (Option CaptureGrouping)) : Prop :=
  ∀ g : CaptureGrouping, some g ∈ gs → g.required = true → falsy (getArg m g.index) = false

theorem captureLoop_ok {T : Type} (r400 : T) (m : List (Option String)) :
    ∀ gs : List (Option CaptureGrouping), noRequiredFail m gs →
      ∀ (i : Nat) (args : List (Option String)),
        captureLoop r400 (some m) gs i args = .ok (.inr (applyCaptures m gs i args)) := by
  intro gs
  induction gs with
  | nil =>
    intro _ i args
    simp [captureLoop, applyCaptures]
  | cons a gs ih =>
    intro hno i args
    cases a with
    | none =>
      simpa [captureLoop, applyCaptures] using
        ih (fun g hm => hno g (List.mem_cons_of_mem _ hm)) (i + 1) args
    | some g =>
      have hcond : (g.required && falsy (getArg m g.index)) = false := by
        cases hr : g.required
        · simp
        · simp [hno g (List.mem_cons_self _ _) hr]
      simpa [captureLoop, applyCaptures, hcond] using
        ih (fun g' hm => hno g' (List.mem_cons_of_mem _ hm)) (i + 1)
          (setArg args i (getArg m g.index))

theorem getArg_applyCaptures_lt (m : List (Option String)) :
    ∀ (gs : List (Option CaptureGrouping)) (i : Nat) (args : List (Option String))
      (p : Nat), p < i → getArg (applyCaptures m gs i args) p = getArg args p := by
  intro gs
  induction gs with
  | nil => intro i args p _; rfl
  | cons a gs ih =>
    intro i args p hp
    cases a with
    | none => simpa [applyCaptures] using ih (i + 1) args p (by omega)
    | some g =>
      have h1 := ih (i + 1) (setArg args i (getArg m g.index)) p (by omega)
      have h2 := getArg_setArg_ne args i p (getArg m g.index) (by omega)
      simp [applyCaptures, h1, h2]

theorem getArg_applyCaptures_at (m : List (Option String)) (g : CaptureGrouping) :
    ∀ (pre rest : List (Option CaptureGrouping)) (i : Nat)
      (args : List (Option String)),
      getArg (applyCaptures m (pre ++ some g :: rest) i args) (i + pre.length) =
        getArg m g.index := by
  intro pre
  induction pre with
  | nil =>
    intro rest i args
    simp only [List.nil_append, applyCaptures, List.length_nil, Nat.add_zero]
    rw [getArg_applyCaptures_lt m rest (i + 1) _ i (by omega), getArg_setArg_self]
  | cons a pre ih =>
    intro rest i args
    cases a with
    | none =>
      simp only [List.cons_append, applyCaptures, List.length_cons]
      rw [show i + (pre.length + 1) = (i + 1) + pre.length from by omega]
      exact ih rest (i + 1) args
    | some g' =>
      simp only [List.cons_append, applyCaptures, List.length_cons]
      rw [show i + (pre.length + 1) = (i + 1) + pre.length from by omega]
      exact ih rest (i + 1) (setArg args i (getArg m g'.index))

theorem call_regex_ok {T : Type} (e : Responder T) (path : String)
    (address body : Option String) (re : RegExpM) (m : List (Option String))
    (gs : List (Option CaptureGrouping))
    (hpath : e.path = .regex re) (hexec : re.exec path = some m)
    (hgate : e.meta.protect = true → falsy address = false)
    (hcap : e.meta.captures = some gs)
    (hno : noRequiredFail m gs) :
    ∃ args0 : List (Option String),
      e.call path address body = .ok (e.handler (applyCaptures m gs 0 args0)) := by
  have hloop := captureLoop_ok e.responses.r400 m gs hno
  have hg := gate_false e address hgate
  refine ⟨(match e.meta.bodyIndex with
    | some i => setArg (match e.meta.addressIndex with
        | some j => setArg [] j address
        | none => []) i body
    | none => match e.meta.addressIndex with
        | some j => setArg [] j address
        | none => []), ?_⟩
  simp [Responder.call, hpath, hcap, hexec, hg, hloop]

/-- C5: on a regex-typed entry whose pattern matches the path, an optional
(non-required) capture binding whose referenced group is absent or empty does not
prevent invocation: `call` still invokes the handler method, and the argument at
that binding's parameter position is exactly the (falsy) captured value. -/
theorem call_optional_capture_invokes {T : Type} (e : Responder T) (path : String)
    (address body : Option String) (re : RegExpM) (m : List (Option String))
    (pre rest : List (Option CaptureGrouping)) (g : CaptureGrouping)
    (hpath : e.path = .regex re) (hexec : re.exec path = some m)
    (hgate : e.meta.protect = true → falsy address = false)
    (hcap : e.meta.captures = some (pre ++ some g :: rest))
    (hopt : g.required = false)
    (hempty : falsy (getArg m g.index) = true)
    (hno : noRequiredFail m (pre ++ some g :: rest)) :
    ∃ args' : List (Option String),
      e.call path address body = .ok (e.handler args') ∧
      getArg args' pre.length = getArg m g.index ∧
      falsy (getArg args' pre.length) = true := by
  obtain ⟨args0, hcall⟩ := call_regex_ok e path address body re m _ hpath hexec hgate hcap hno
  refine ⟨_, hcall, ?_, ?_⟩
  · simpa using getArg_applyCaptures_at m g pre rest 0 args0
  · have h := getArg_applyCaptures_at m g pre rest 0 args0
    simp only [Nat.zero_add] at h
    rw [h, hempty]

/-- A concrete regex route `GET /i(x)?/` whose parameter 0 is bound, optionally,
to group 1. -/
def optCapResponder : Responder Nat :=
  { handler := fun args => args.length
    path := .regex reIopt
    method := "get"
    meta := { protect := false, addressIndex := none, bodyIndex := none,
              captures := some [some { index := 1, required := false }] }
    responses := natResponses }

/-- Witness for C5: invoking the concrete optional-capture route on `"iy"` (the
group does not participate) still calls the handler, with an absent value at
parameter 0. -/
theorem call_optional_capture_invokes_witness :
    ∃ args' : List (Option String),
      optCapResponder.call "iy" none none = .ok (optCapResponder.handler args') ∧
      getArg args' 0 = getArg [some "i", none] 1 ∧
      falsy (getArg args' 0) = true :=
  call_optional_capture_invokes optCapResponder "iy" none none reIopt [some "i", none]
    [] [] { index := 1, required := false } rfl (by decide) (by decide) rfl rfl
    (by decide)
    (by rintro g hm hr; simp at hm; subst hm; exact Bool.noConfusion hr)

/-- C6: for an entry whose method binds the address at index `ai` and the body at
a different index `bi` (and whose path involves no capture extraction), `call`
invokes the handler with the address placed at `ai` and the body at `bi`; the two
placements are independent — swapping the order in which the two values are
placed yields the same argument at every position. -/
theorem call_address_body_positions {T : Type} (e : Responder T) (path : String)
    (address body : Option String) (ai bi : Nat)
    (ha : e.meta.addressIndex = some ai) (hb : e.meta.bodyIndex = some bi)
    (hne : ai ≠ bi)
    (hnc : ∀ re : RegExpM, e.path = .regex re → e.meta.captures = none)
    (hgate : e.meta.protect = true → falsy address = false) :
    e.call path address body = .ok (e.handler (setArg (setArg [] ai address) bi body))
    ∧ getArg (setArg (setArg [] ai address) bi body) ai = address
    ∧ getArg (setArg (setArg [] ai address) bi body) bi = body
    ∧ ∀ p : Nat, getArg (setArg (setArg [] ai address) bi body) p =
        getArg (setArg (setArg [] bi body) ai address) p := by
  have hg := gate_false e address hgate
  refine ⟨?_, ?_, ?_, ?_⟩
  · cases hp : e.path with
    | str s => simp [Responder.call, hp, ha, hb, hg]
    | regex re => simp [Responder.call, hp, ha, hb, hg, hnc re hp]
  · rw [getArg_setArg_ne _ bi ai body (fun hc => hne hc.symm), getArg_setArg_self]
  · rw [getArg_setArg_self]
  · intro p
    by_cases hpa : p = ai
    · subst hpa
      rw [getArg_setArg_ne _ bi p body (fun hc => hne hc.symm), getArg_setArg_self,
        getArg_setArg_self]
    · by_cases hpb : p = bi
      · subst hpb
        rw [getArg_setArg_self, getArg_setArg_ne _ ai p address (fun hc => hne hc),
          getArg_setArg_self]
      · rw [getArg_setArg_ne _ bi p body (fun hc => hpb hc.symm),
          getArg_setArg_ne _ ai p address (fun hc => hpa hc.symm),
          getArg_setArg_ne _ ai p address (fun hc => hpa hc.symm),
          getArg_setArg_ne _ bi p body (fun hc => hpb hc.symm)]

/-- A concrete literal route `POST /ab` binding the address at parameter 0 and
the body at parameter 1. -/
def abResponder : Responder Nat :=
  { handler := fun args => args.length
    path := .str "/ab"
    method := "post"
    meta := { protect := false, addressIndex := some 0, bodyIndex := some 1,
              captures := none }
    responses := natResponses }

/-- Witness for C6: the concrete address+body route receives the supplied address
at parameter 0 and the supplied body at parameter 1. -/
theorem call_address_body_positions_witness :
    abResponder.call "/ab" (some "alice") (some "hello") =
      .ok (abResponder.handler (setArg (setArg [] 0 (some "alice")) 1 (some "hello")))
    ∧ getArg (setArg (setArg [] 0 (some "alice")) 1 (some "hello")) 0 = some "alice"
    ∧ getArg (setArg (setArg [] 0 (some "alice")) 1 (some "hello")) 1 = some "hello" := by
  have h := call_address_body_positions abResponder "/ab" (some "alice") (some "hello")
    0 1 rfl rfl (by decide) (fun _ _ => rfl) (by decide)
  exact ⟨h.1, h.2.1, h.2.2.1⟩

/-- C7: when a capture binding's parameter position coincides with the address or
body binding's declared index, the value the handler receives at that position is
the captured group value — the capture-extraction step overwrites the
address/body value placed earlier at the same index. -/
theorem call_capture_overwrites_address_body {T : Type} (e : Responder T)
    (path : String) (address body : Option String) (re : RegExpM)
    (m : List (Option String)) (pre rest : List (Option CaptureGrouping))
    (g : CaptureGrouping)
    (hpath : e.path = .regex re) (hexec : re.exec path = some m)
    (hgate : e.meta.protect = true → falsy address = false)
    (hcap : e.meta.captures = some (pre ++ some g :: rest))
    (hcoincide : e.meta.addressIndex = some pre.length ∨
      e.meta.bodyIndex = some pre.length)
    (hno : noRequiredFail m (pre ++ some g :: rest)) :
    ∃ args' : List (Option String),
      e.call path address body = .ok (e.handler args') ∧
      getArg args' pre.length = getArg m g.index := by
  obtain ⟨args0, hcall⟩ := call_regex_ok e path address body re m _ hpath hexec hgate hcap hno
  refine ⟨_, hcall, ?_⟩
  simpa using getArg_applyCaptures_at m g pre rest 0 args0

/-- A concrete regex route `GET /i(x)?/` binding the address at parameter 0 and
also binding group 1 to parameter 0. -/
def ovrResponder : Responder Nat :=
  { handler := fun args => args.length
    path := .regex reIopt
    method := "get"
    meta := { protect := false, addressIndex := some 0, bodyIndex := none,
              captures := some [some { index := 1, required := false }] }
    responses := natResponses }

/-- Witness for C7: on `"ix"` with a supplied address, the handler's parameter 0
holds the captured group (`"x"`), not the address. -/
theorem call_capture_overwrites_address_body_witness :
    ∃ args' : List (Option String),
      ovrResponder.call "ix" (some "alice") none = .ok (ovrResponder.handler args') ∧
      getArg args' 0 = some "x" :=
  call_capture_overwrites_address_body ovrResponder "ix" (some "alice") none reIopt
    [some "ix", some "x"] [] [] { index := 1, required := false } rfl (by decide)
    (by decide) rfl (Or.inl rfl)
    (by rintro g hm hr; simp at hm; subst hm; exact Bool.noConfusion hr)

theorem buildEntries_ok_eq {T : Type} (responses : Responses T) :
    ∀ (cs : List (ResponderConstructor T)) (es : List (Responder T)),
      buildEntries responses cs = .ok es →
      es = (cs.map (classEntries responses)).flatten := by
  intro cs
  induction cs with
  | nil =>
    intro es h
    simp only [buildEntries, Except.ok.injEq] at h
    simp [← h]
  | cons c cs ih =>
    intro es h
    simp only [buildEntries] at h
    cases hm : c.pathMeta with
    | none =>
      rw [hm] at h
      exact absurd h (by simp)
    | some paths =>
      rw [hm] at h
      cases hb : buildEntries responses cs with
      | error err =>
        rw [hb] at h
        simp [Except.map] at h
      | ok es' =>
        rw [hb] at h
        simp only [Except.map, Except.ok.injEq] at h
        rw [← h, ih es' hb]
        simp [classEntries, hm]

theorem buildEntries_missing {T : Type} (responses : Responses T) :
    ∀ cs : List (ResponderConstructor T), (∃ c ∈ cs, c.pathMeta = none) →
      buildEntries responses cs = .error .typeError := by
  intro cs
  induction cs with
  | nil =>
    rintro ⟨c, hc, _⟩
    simp at hc
  | cons c cs ih =>
    rintro ⟨c', hc', hnone⟩
    simp only [buildEntries]
    cases hm : c.pathMeta with
    | none => rfl
    | some paths =>
      rcases List.mem_cons.mp hc' with h | h
      · subst h
        rw [hm] at hnone
        exact absurd hnone (by simp)
      · rw [ih ⟨c', h, hnone⟩]
        rfl

theorem init_ok_shape {T : Type} (rs rs' : Responders T) (h : rs.init = .ok rs') :
    rs' = { rs with responderEntries := rs.responderEntries ++ entriesOf rs } := by
  unfold Responders.init at h
  cases hb : buildEntries rs.responses rs.responderConstructors with
  | error err =>
    rw [hb] at h
    simp [Except.map] at h
  | ok es =>
    rw [hb] at h
    simp only [Except.map, Except.ok.injEq] at h
    have he := buildEntries_ok_eq rs.responses rs.responderConstructors es hb
    rw [← h]
    simp [entriesOf, ← he]

/-- C9: a successful `init` appends, to the existing entry list, exactly the
per-class route lists in declaration order, concatenated across the registered
classes in registration order; running `init` a second time appends the same
block again (duplicate, independent entries), and registering the same class
twice makes its entries appear twice in what `init` builds. -/
theorem init_order_and_duplication {T : Type} (rs rs' rs'' : Responders T)
    (c : ResponderConstructor T)
    (h1 : rs.init = .ok rs') (h2 : rs'.init = .ok rs'') :
    rs'.responderEntries = rs.responderEntries ++ entriesOf rs
    ∧ rs''.responderEntries = rs.responderEntries ++ (entriesOf rs ++ entriesOf rs)
    ∧ entriesOf ((rs.register c).register c) =
        entriesOf rs ++ (classEntries rs.responses c ++ classEntries rs.responses c) := by
  have e1 := init_ok_shape rs rs' h1
  have e2 := init_ok_shape rs' rs'' h2
  have hent : rs'.responderEntries = rs.responderEntries ++ entriesOf rs := by
    rw [e1]
  have hof : entriesOf rs' = entriesOf rs := by
    rw [e1]
    simp [entriesOf]
  refine ⟨hent, ?_, ?_⟩
  · calc rs''.responderEntries = rs'.responderEntries ++ entriesOf rs' := by rw [e2]
      _ = rs.responderEntries ++ (entriesOf rs ++ entriesOf rs) := by
          rw [hent, hof, List.append_assoc]
  · simp [entriesOf, Responders.register, List.append_assoc]

/-- A route declaration `GET /w` on the method key `k`. -/
def wDef : ResponderDefinition := { key := "k", path := .str "/w", method := "get" }

/-- A handler class declaring the single route `wDef`. -/
def wClass : ResponderConstructor Nat :=
  { pathMeta := some [wDef], methodMeta := fun _ => plainMeta, handlers := fun _ _ => 7 }

/-- A registry with `wClass` registered and no entries built yet. -/
def wRs : Responders Nat :=
  { responderEntries := [], responderConstructors := [wClass], responses := natResponses }

/-- The registry after one `init`: one entry for `wDef`. -/
def wRs1 : Responders Nat :=
  { responderEntries := [mkEntry natResponses wClass wDef]
    responderConstructors := [wClass]
    responses := natResponses }

/-- The registry after a second `init`: the entry for `wDef` duplicated. -/
def wRs2 : Responders Nat :=
  { responderEntries := [mkEntry natResponses wClass wDef, mkEntry natResponses wClass wDef]
    responderConstructors := [wClass]
    responses := natResponses }

/-- Witness for C9: at the concrete one-class registry, one `init` appends the
class's entry, a second `init` appends it again, and double registration doubles
the built entries. -/
theorem init_order_and_duplication_witness :
    wRs1.responderEntries = wRs.responderEntries ++ entriesOf wRs
    ∧ wRs2.responderEntries = wRs.responderEntries ++ (entriesOf wRs ++ entriesOf wRs)
    ∧ entriesOf ((wRs.register wClass).register wClass) =
        entriesOf wRs ++ (classEntries wRs.responses wClass ++ classEntries wRs.responses wClass) :=
  init_order_and_duplication wRs wRs1 wRs2 wClass rfl rfl

/-- C8 (amended): a registered handler class with no route metadata at all makes
`init` fail by raising (the `TypeError` from mapping over undefined metadata);
but a capture binding referencing a capture group with no corresponding group in
the regex pattern does not raise at `invoke` time — when the binding is required,
`call` returns the configured 400 response in-band (the absent group reads as
undefined, which is falsy), for every handler method. -/
theorem init_missing_meta_and_capture_group {T : Type} (rs : Responders T)
    (c : ResponderConstructor T) (hc : c ∈ rs.responderConstructors)
    (hnone : c.pathMeta = none)
    (e : Responder T) (path : String) (address body : Option String) (re : RegExpM)
    (m : List (Option String)) (pre rest : List (Option CaptureGrouping))
    (g : CaptureGrouping)
    (hpath : e.path = .regex re) (hexec : re.exec path = some m)
    (hgate : e.meta.protect = true → falsy address = false)
    (hcap : e.meta.captures = some (pre ++ some g :: rest))
    (hreq : g.required = true) (hout : m.length ≤ g.index)
    (hpre : ∀ g' : CaptureGrouping, some g' ∈ pre → g'.required = true →
      falsy (getArg m g'.index) = false) :
    rs.init = .error .typeError
    ∧ ∀ h : List (Option String) → T,
        Responder.call { e with handler := h } path address body = .ok e.responses.r400 := by
  constructor
  · unfold Responders.init
    rw [buildEntries_missing rs.responses rs.responderConstructors ⟨c, hc, hnone⟩]
    rfl
  · have hfail : falsy (getArg m g.index) = true := by
      rw [getArg_ge_length m g.index hout]
      rfl
    have hloop := captureLoop_required_fail e.responses.r400 m g hreq hfail pre hpre
    have hg := gate_false e address hgate
    intro h
    simp [Responder.call, hpath, hexec, hg, hcap, hloop rest]

/-- A handler class carrying no route metadata at all. -/
def noRouteClass : ResponderConstructor Nat :=
  { pathMeta := none, methodMeta := fun _ => plainMeta, handlers := fun _ _ => 0 }

/-- A registry whose only registered class has no route metadata. -/
def noRouteRegistry : Responders Nat :=
  { responderEntries := [], responderConstructors := [noRouteClass], responses := natResponses }

/-- A regex route `GET /i(x)?/` whose required capture binding references group
7, which does not exist in the pattern (the match array has two slots). -/
def badGroupResponder : Responder Nat :=
  { handler := fun _ => 5
    path := .regex reIopt
    method := "get"
    meta := { protect := false, addressIndex := none, bodyIndex := none,
              captures := some [some { index := 7, required := true }] }
    responses := natResponses }

/-- Counterexample to C8 as stated: invoking the route whose required capture
binding references the nonexistent group 7, on a path its pattern does match,
returns the in-band 400 response — the operation does not fail by raising. -/
theorem capture_group_missing_inband_cex :
    badGroupResponder.call "ix" none none = .ok 400 := rfl

/-- Witness for C8 (amended): the registry whose class has no route metadata
fails `init` with a raised fault, and the concrete nonexistent-group route
returns the 400 literal in-band. -/
theorem init_missing_meta_and_capture_group_witness :
    noRouteRegistry.init = .error .typeError
    ∧ Responder.call { badGroupResponder with handler := fun _ => 5 } "ix" none none =
        .ok 400 := by
  have h := init_missing_meta_and_capture_group noRouteRegistry noRouteClass
    (by simp [noRouteRegistry]) rfl badGroupResponder "ix" none none reIopt
    [some "ix", some "x"] [] [] { index := 7, required := true }
    rfl (by decide) (by decide) rfl rfl (by decide) (by simp)
  exact ⟨h.1, h.2 (fun _ => 5)⟩

end Decorations
